import Mathlib

/-!
Shallow embedding of the rendering engine `draw_bridge` from `src/app.py`
(Truss-Solver repository).  Python floats are modelled as rationals; the
irrational primitives the code calls (`np.sqrt`, `np.cos`, `np.sin`,
`np.arctan2`) are supplied through an explicit kernel parameter `Trig`, and
theorems that depend on the value of a square root carry an exactness
hypothesis for the kernel at the arguments actually used.  Fallible code
(the `ValueError` that `min()` raises on an empty sequence) is modelled with
`Except`.
-/

namespace TrussViz

/-- Support types, per the data model: the `type` field of a node.  The
source compares against the literal strings "Free Joint", "Pinned Support",
"Roller Support", "Fixed (Rigid)". -/
inductive SupportType where
  | freeJoint
  | pinnedSupport
  | rollerSupport
  | fixedRigid
deriving DecidableEq, Repr

/-- The string label of a support type as it appears in `src/app.py`. -/
def SupportType.label : SupportType → String
  | .freeJoint => "Free Joint"
  | .pinnedSupport => "Pinned Support"
  | .rollerSupport => "Roller Support"
  | .fixedRigid => "Fixed (Rigid)"

/-- A node of the model input: `{id, x, y, type, loadX, loadY}` (section 6
shape, as read by `draw_bridge`). -/
structure Node where
  id : ℤ
  x : ℚ
  y : ℚ
  type : SupportType
  loadX : ℚ
  loadY : ℚ
deriving DecidableEq, Repr

/-- An element (member) of the model input: `{id, start, end}`. -/
structure Element where
  id : ℤ
  startId : ℤ
  endId : ℤ
deriving DecidableEq, Repr

/-- A per-element analysis result: `{id, force, stress, safety}`. -/
structure ElemResult where
  id : ℤ
  force : ℚ
  stress : ℚ
  safety : ℚ
deriving DecidableEq, Repr

/-- A per-node analysis result: `{id, rx, ry}`. -/
structure NodeResult where
  id : ℤ
  rx : ℚ
  ry : ℚ
deriving DecidableEq, Repr

/-- The parsed model input file. -/
structure BridgeData where
  nodes : List Node
  elements : List Element
deriving DecidableEq, Repr

/-- The parsed analysis result file. -/
structure ResultsData where
  elements : List ElemResult
  nodes : List NodeResult
deriving DecidableEq, Repr

/-- Kernel of irrational numeric primitives used by the source
(`np.sqrt`, `np.cos`, `np.sin`, `np.arctan2`), abstracted so that the
embedding stays computable.  Theorems that depend on a square-root value
state the defining property of `sqrt` at the arguments in question. -/
structure Trig where
  sqrt : ℚ → ℚ
  cos : ℚ → ℚ
  sin : ℚ → ℚ
  atan2 : ℚ → ℚ → ℚ
  pi : ℚ

/-- A concrete kernel used to instantiate witnesses: `Rat.sqrt` is exact on
perfect squares, and the trig components (which none of the verified
properties inspect) are arbitrary total functions. -/
def ratTrig : Trig where
  sqrt := Rat.sqrt
  cos := fun _ => 1
  sin := fun _ => 0
  atan2 := fun _ _ => 0
  pi := 355/113

/-! Python-dict and builtin helpers. -/

/-- Insert into a Python dict (association list): an existing key is
overwritten in place, a new key is appended, matching insertion-order
semantics of `{k: v for ...}`. -/
def dictInsert {α : Type} (d : List (ℤ × α)) (k : ℤ) (v : α) : List (ℤ × α) :=
  if (d.map Prod.fst).contains k then
    d.map (fun p => if p.1 = k then (k, v) else p)
  else
    d ++ [(k, v)]

/-- Build a Python dict from a list, keyed by `key` (later entries win). -/
def buildDict {α : Type} (key : α → ℤ) (l : List α) : List (ℤ × α) :=
  l.foldl (fun d a => dictInsert d (key a) a) []

/-- Dict lookup (`d[k]` / `k in d`). -/
def dictFind {α : Type} (d : List (ℤ × α)) (k : ℤ) : Option α :=
  (d.find? (fun p => p.1 == k)).map Prod.snd

/-- Python `max` of a nonempty list. -/
def pyMax (x : ℚ) (xs : List ℚ) : ℚ := xs.foldl max x

/-- Python `min` of a nonempty list. -/
def pyMin (x : ℚ) (xs : List ℚ) : ℚ := xs.foldl min x

/-- Python `int()` on a float: truncation toward zero. -/
def pyInt (q : ℚ) : ℤ := if 0 ≤ q then ⌊q⌋ else ⌈q⌉

/-- Round to the nearest integer, ties to even (the rounding used by
Python float formatting). -/
def roundHalfEven (q : ℚ) : ℤ :=
  let f := ⌊q⌋
  let r := q - (f : ℚ)
  if r < 1/2 then f
  else if 1/2 < r then f + 1
  else if f % 2 = 0 then f else f + 1

/-- Left-pad a digit string with zeros to the given width. -/
def padZeros (w : ℕ) (s : String) : String :=
  String.mk (List.replicate (w - s.length) '0') ++ s

/-- Python `f"{q:.<nd>f}"` for a rational value. -/
def fmtDec (nd : ℕ) (q : ℚ) : String :=
  let p : ℕ := 10 ^ nd
  let n := roundHalfEven (q * (p : ℚ))
  let s := if n < 0 then "-" else ""
  let m := n.natAbs
  s ++ toString (m / p) ++ "." ++ padZeros nd (toString (m % p))

/-- Python `sub in s` substring test. -/
def strContains (s sub : String) : Bool := (s.splitOn sub).length > 1

/-! Scene metrics (lines 66-91 of `src/app.py`). -/

/-- `all_nodes = {node['id']: node for node in bridge_data.get('nodes', [])}`. -/
def allNodesDict (bd : BridgeData) : List (ℤ × Node) := buildDict Node.id bd.nodes

/-- Node lookup in `all_nodes`. -/
def lookupNode (bd : BridgeData) (k : ℤ) : Option Node := dictFind (allNodesDict bd) k

/-- `complexity_factor = max(0.35, (12.0 / max(12.0, len(all_elements)))**0.5)`. -/
def complexityFactor (K : Trig) (bd : BridgeData) : ℚ :=
  max (7/20) (K.sqrt (12 / max 12 (bd.elements.length : ℚ)))

/-- `x_coords = [n['x'] for n in all_nodes.values()]`. -/
def xCoords (bd : BridgeData) : List ℚ := (allNodesDict bd).map (fun p => p.2.x)

/-- `y_coords = [n['y'] for n in all_nodes.values()]`. -/
def yCoords (bd : BridgeData) : List ℚ := (allNodesDict bd).map (fun p => p.2.y)

/-- `dx = max(x_coords) - min(x_coords) if x_coords else 10`. -/
def spanX (bd : BridgeData) : ℚ :=
  match xCoords bd with
  | [] => 10
  | x :: xs => pyMax x xs - pyMin x xs

/-- `dy = max(y_coords) - min(y_coords) if y_coords else 5`. -/
def spanY (bd : BridgeData) : ℚ :=
  match yCoords bd with
  | [] => 5
  | y :: ys => pyMax y ys - pyMin y ys

/-- `aspect_ratio = dy / dx if dx > 0 else 1`. -/
def aspectRatio (bd : BridgeData) : ℚ :=
  if spanX bd > 0 then spanY bd / spanX bd else 1

/-- `rec_h = max(500, min(900, 500 + int(aspect_ratio * 300)))`. -/
def recH (bd : BridgeData) : ℤ :=
  max 500 (min 900 (500 + pyInt (aspectRatio bd * 300)))

/-- The member lengths list (line 84-86): lengths of the elements whose
`start` and `end` both resolve in `all_nodes`. -/
def memberLengths (K : Trig) (bd : BridgeData) : List ℚ :=
  bd.elements.filterMap (fun e =>
    match lookupNode bd e.startId, lookupNode bd e.endId with
    | some ns, some ne =>
        some (K.sqrt ((ns.x - ne.x) ^ 2 + (ns.y - ne.y) ^ 2))
    | _, _ => none)

/-- `min_len` (lines 82-87): default `2.0`; if there are elements and the
lengths list is nonempty, `min(l for l in lengths if l > 0)` — which raises
`ValueError` when no length is positive.  The raise is modelled as
`Except.error`. -/
def minLenE (K : Trig) (bd : BridgeData) : Except Unit ℚ :=
  if bd.elements.isEmpty then .ok 2
  else if (memberLengths K bd).isEmpty then .ok 2
  else
    match ((memberLengths K bd).filter (fun l => 0 < l)).min? with
    | none => .error ()
    | some m => .ok m

/-- `auto_mult = 0.55 if len(all_elements) > 20 else (0.75 if len(all_elements) < 8 else 0.65)`. -/
def autoMult (bd : BridgeData) : ℚ :=
  if bd.elements.length > 20 then 11/20
  else if bd.elements.length < 8 then 3/4 else 13/20

/-- `visual_scale = max(0.1, min(min_len * 0.3, 0.6)) * complexity_factor * auto_mult` (line 91). -/
def visualScaleFrom (minLen cf am : ℚ) : ℚ :=
  max (1/10) (min (minLen * (3/10)) (3/5)) * cf * am

/-- The visual scale of a model (propagating the `min_len` failure). -/
def visualScaleE (K : Trig) (bd : BridgeData) : Except Unit ℚ :=
  (minLenE K bd).map (fun ml => visualScaleFrom ml (complexityFactor K bd) (autoMult bd))

/-! Scene primitives. -/

/-- A plotly scatter trace, restricted to the attributes the source sets:
coordinates (with `None` separators), mode, line/marker color and width,
marker symbol and size, fill flag, hover text, and the three legend
attributes.  `showlegend` defaults to `true` (plotly's default for a
multi-trace figure with the legend enabled). -/
structure Trace where
  xs : List (Option ℚ)
  ys : List (Option ℚ)
  mode : String
  color : String
  width : ℚ := 0
  symbol : String := ""
  msize : ℚ := 0
  fill : Bool := false
  hoverText : String := ""
  name : String := ""
  legendgroup : String := ""
  showlegend : Bool := true
deriving DecidableEq, Repr

/-- A plotly text label (the source's `fig.add_annotation` calls),
restricted to position, text, font size and badge background color. -/
structure Annot where
  x : ℚ
  y : ℚ
  text : String
  fontSize : ℚ
  bgcolor : String
deriving DecidableEq, Repr

/-- The arguments of one `add_trace_arrow` invocation. -/
structure ArrowCall where
  startX : ℚ
  startY : ℚ
  endX : ℚ
  endY : ℚ
  color : String
  name : String
  group : String
  text : Option String := none
  textOffset : ℚ := 45/100
deriving DecidableEq, Repr

/-- `add_trace_arrow` (lines 94-137): six traces (dark shadow, white glow,
vibrant center — shaft and head each), every one with `showlegend=False`,
plus an optional label annotation. -/
def addTraceArrow (K : Trig) (visualScale cf : ℚ) (a : ArrowCall) :
    List Trace × List Annot :=
  let hSz := (48/100) * visualScale
  let angle := K.atan2 (a.endY - a.startY) (a.endX - a.startX)
  let shLen := (7/10) * hSz
  let sxE := a.endX - shLen * K.cos angle
  let syE := a.endY - shLen * K.sin angle
  let bw := (8/100) * hSz
  let bxS := a.startX + bw * K.cos angle
  let byS := a.startY + bw * K.sin angle
  let bxE := sxE - bw * K.cos angle
  let byE := syE - bw * K.sin angle
  let a1 := angle + K.pi * (111/100)
  let a2 := angle - K.pi * (111/100)
  let hx : List (Option ℚ) := [some a.endX, some (a.endX + hSz * K.cos a1),
    some (a.endX + hSz * K.cos a2), some a.endX, none]
  let hy : List (Option ℚ) := [some a.endY, some (a.endY + hSz * K.sin a1),
    some (a.endY + hSz * K.sin a2), some a.endY, none]
  let wDark := max 6 (8 * cf)
  let wWhite := max 4 (6 * cf)
  let wColor := max 2 (4 * cf)
  let darkC := "#0f172a"
  let shaft := fun (c : String) (w : ℚ) =>
    ({ xs := [some bxS, some bxE, none], ys := [some byS, some byE, none],
       mode := "lines", color := c, width := w, legendgroup := a.group,
       showlegend := false } : Trace)
  let head := fun (c : String) (w : ℚ) =>
    ({ xs := hx, ys := hy, mode := "lines", color := c, width := w,
       fill := true, legendgroup := a.group, showlegend := false } : Trace)
  let traces := [shaft darkC wDark, head darkC (5/2),
    shaft "white" wWhite, head "white" (3/2),
    shaft a.color wColor, head a.color (8/10)]
  let anns :=
    match a.text with
    | none => []
    | some t =>
        let dirX := K.cos angle
        let dirY := K.sin angle
        let off := a.textOffset * visualScale
        let isForce := strContains a.name "Force"
        let isReaction := strContains a.name "Reaction"
        let l0 := if isForce then (a.endX + dirX * off, a.endY + dirY * off)
                  else (a.startX - dirX * off, a.startY - dirY * off)
        let l1 := if isReaction then (a.startX - dirX * off, a.startY - dirY * off)
                  else l0
        [({ x := l1.1, y := l1.2, text := t,
            fontSize := min 10 (8 + (5/2) * cf), bgcolor := a.color } : Annot)]
  (traces, anns)

/-! Beam layer (lines 139-237). -/

/-- The results dicts (lines 55-64): empty when the result file is missing
or unreadable. -/
def simResultsDict (res : Option ResultsData) : List (ℤ × ElemResult) :=
  match res with
  | none => []
  | some r => buildDict ElemResult.id r.elements

/-- The per-node results dict. -/
def nodeResultsDict (res : Option ResultsData) : List (ℤ × NodeResult) :=
  match res with
  | none => []
  | some r => buildDict NodeResult.id r.nodes

/-- Beam line color and width (lines 150-166): neutral blue draft default,
then red/orange/green by safety factor. -/
def beamStyle (r : Option ElemResult) : String × ℚ :=
  match r with
  | none => ("#3b82f6", 4)
  | some br =>
      if br.safety < 1 then ("#ef4444", 6)
      else if br.safety < 2 then ("#f59e0b", 5)
      else ("#10b981", 6)

/-- Beam legend group name (lines 168-175). -/
def legendGroupName (r : Option ElemResult) : String :=
  match r with
  | none => "Beam (Draft)"
  | some br =>
      if br.safety < 1 then "Beam (Unsafe)"
      else if br.safety < 2 then "Beam (Caution)"
      else "Beam (Safe)"

/-- Member-id badge background color (lines 340-346). -/
def labelBgColor (r : Option ElemResult) : String :=
  match r with
  | none => "#3b82f6"
  | some br =>
      if br.safety < 1 then "#ef4444"
      else if br.safety < 2 then "#f59e0b"
      else "#10b981"

/-- Beam hover text (lines 151-159). -/
def hoverTextFor (e : Element) (r : Option ElemResult) : String :=
  match r with
  | none => "Beam #" ++ toString e.id
  | some br =>
      "Beam #" ++ toString e.id ++ "<br>Force: " ++ fmtDec 2 br.force ++
        " kN<br>Safety: " ++ fmtDec 2 br.safety

/-- One internal-force arrow (lines 209-236) for a given `sign` of the
`for sign in [1, -1]` loop. -/
def internalArrowAt (K : Trig) (vs sx sy ex ey force sign : ℚ) : ArrowCall :=
  let isCompression := force ≤ 0
  let arrowColor := if isCompression then "#fb923c" else "#22d3ee"
  let legendGroupArrow := if isCompression then "Compression Force" else "Tension Force"
  let lengthOfBeam := K.sqrt ((ex - sx) ^ 2 + (ey - sy) ^ 2)
  let midX := (sx + ex) / 2
  let midY := (sy + ey) / 2
  let slopeX := (ex - sx) / lengthOfBeam
  let slopeY := (ey - sy) / lengthOfBeam
  let arrowLength := min (vs * (3/2)) (lengthOfBeam * (7/20))
  let innerGap := min (vs * (3/5)) (lengthOfBeam * (1/10))
  let outerGap := innerGap + arrowLength
  let distTail := if isCompression then outerGap else innerGap
  let distTip := if isCompression then innerGap else outerGap
  { startX := midX + sign * slopeX * distTail
    startY := midY + sign * slopeY * distTail
    endX := midX + sign * slopeX * distTip
    endY := midY + sign * slopeY * distTip
    color := arrowColor
    name := "Internal Force"
    group := legendGroupArrow }

/-- The two internal-force arrows of an analyzed member (the
`for sign in [1, -1]` loop, line 234). -/
def internalForceArrows (K : Trig) (vs sx sy ex ey force : ℚ) : List ArrowCall :=
  [(1 : ℚ), -1].map (internalArrowAt K vs sx sy ex ey force)

/-- The body of the beam loop (lines 140-237) for one element: returns the
updated legend set, the traces and the annotations it adds to the figure.
An element whose `start` or `end` does not resolve is skipped (`continue`).
The source keeps the legend set inside the `simulation_results` dict under
the key `'_legend_set'`; it is threaded here as explicit state. -/
def beamStep (K : Trig) (nodesD : List (ℤ × Node)) (simD : List (ℤ × ElemResult))
    (vs cf : ℚ) (legendSet : List String) (e : Element) :
    List String × List Trace × List Annot :=
  match dictFind nodesD e.startId, dictFind nodesD e.endId with
  | some nodeS, some nodeE =>
      let res := dictFind simD e.id
      let style := beamStyle res
      let hover := hoverTextFor e res
      let lg := legendGroupName res
      let upd := if lg ∈ legendSet then (false, legendSet)
                 else (true, legendSet ++ [lg])
      let lineTrace : Trace :=
        { xs := [some nodeS.x, some nodeE.x, none]
          ys := [some nodeS.y, some nodeE.y, none]
          mode := "lines", color := style.1, width := style.2
          hoverText := hover, name := lg, legendgroup := lg
          showlegend := upd.1 }
      let arrows :=
        match res with
        | some br =>
            if 1/10 < |br.force| then
              internalForceArrows K vs nodeS.x nodeS.y nodeE.x nodeE.y br.force
            else []
        | none => []
      let drawn := arrows.map (addTraceArrow K vs cf)
      (upd.2, lineTrace :: (drawn.map Prod.fst).flatten,
        (drawn.map Prod.snd).flatten)
  | _, _ => (legendSet, [], [])

/-- The beam loop over all elements, threading the legend set. -/
def beamsFold (K : Trig) (nodesD : List (ℤ × Node)) (simD : List (ℤ × ElemResult))
    (vs cf : ℚ) : List Element → List String → List String × List Trace × List Annot
  | [], st => (st, [], [])
  | e :: es, st =>
      let r1 := beamStep K nodesD simD vs cf st e
      let r2 := beamsFold K nodesD simD vs cf es r1.1
      (r2.1, r1.2.1 ++ r2.2.1, r1.2.2 ++ r2.2.2)

/-- The four always-emitted force legend entries (lines 239-240):
legend-only marker traces at `x=[None], y=[None]`. -/
def forceLegendTraces : List Trace :=
  [("Tension Force", "#22d3ee"), ("Compression Force", "#fb923c"),
   ("Load Force", "#f43f5e"), ("Reaction Force", "#8b5cf6")].map
    (fun p =>
      { xs := [none], ys := [none], mode := "markers", color := p.2,
        symbol := "arrow-bar-up", msize := 10, name := p.1, legendgroup := p.1 })

/-! Joint, support, load and reaction layer (lines 244-312). -/

/-- Support marker style table (lines 259-260), with the dict-lookup
default `('circle', '#1e3d59')`. -/
def supportMarker : SupportType → String × String
  | .pinnedSupport => ("triangle-up-dot", "#000000")
  | .rollerSupport => ("circle", "#000000")
  | .fixedRigid => ("square-dot", "#000000")
  | .freeJoint => ("circle", "#1e3d59")

/-- The applied-load arrow of a node (lines 282-295): emitted only when
`sqrt(loadX^2 + loadY^2)/1000 > 0.001`. -/
def loadArrow (K : Trig) (vs : ℚ) (node : Node) : List ArrowCall :=
  let loadMagnitude := K.sqrt (node.loadX ^ 2 + node.loadY ^ 2) / 1000
  if loadMagnitude > 1/1000 then
    let dirX := node.loadX / 1000
    let dirY := node.loadY / 1000
    let norm := K.sqrt (dirX ^ 2 + dirY ^ 2)
    let ux := dirX / norm
    let uy := dirY / norm
    [{ startX := node.x + ux * (15/100) * vs, startY := node.y + uy * (15/100) * vs
       endX := node.x + ux * (16/10) * vs, endY := node.y + uy * (16/10) * vs
       color := "#f43f5e", name := "Load Force", group := "Load Force"
       text := some (fmtDec 1 loadMagnitude ++ " kN") }]
  else []

/-- The reaction arrow of a node with a `JointResult` (lines 300-312):
emitted only when `sqrt(rx_val^2 + ry_val^2) > 0.001` where
`rx_val = rx/1000`; the arrow is drawn into the support, opposite the
reaction vector, with gap `0.25 * visual_scale` and length
`1.6 * visual_scale`. -/
def reactionArrow (K : Trig) (vs : ℚ) (node : Node) (nr : NodeResult) : List ArrowCall :=
  let rxv := nr.rx / 1000
  let ryv := nr.ry / 1000
  let reactionMagnitude := K.sqrt (rxv ^ 2 + ryv ^ 2)
  if reactionMagnitude > 1/1000 then
    let norm := K.sqrt (rxv ^ 2 + ryv ^ 2)
    let ux := rxv / norm
    let uy := ryv / norm
    let rGap := (25/100) * vs
    let rLen := (16/10) * vs
    [{ startX := node.x - ux * (rLen + rGap), startY := node.y - uy * (rLen + rGap)
       endX := node.x - ux * rGap, endY := node.y - uy * rGap
       color := "#8b5cf6", name := "Reaction Force", group := "Reaction Force"
       text := some ("R: " ++ fmtDec 1 reactionMagnitude) }]
  else []

/-- The body of the node loop (lines 247-312) for one `(node_id, node)`
dict entry: the support glyph trace (with its own legend set, kept by the
source under `'_support_legend'`), then load and reaction arrows. -/
def nodeStep (K : Trig) (nodeResD : List (ℤ × NodeResult)) (vs cf : ℚ)
    (supportSet : List String) (p : ℤ × Node) :
    List String × List Trace × List Annot :=
  let node := p.2
  let supportType := node.type
  let marker := supportMarker supportType
  let sup :=
    if supportType ≠ SupportType.freeJoint then
      let lg := supportType.label
      let upd := if lg ∈ supportSet then (false, supportSet)
                 else (true, supportSet ++ [lg])
      let sSz := max 22 (55 * vs)
      (upd.2,
        [({ xs := [some node.x], ys := [some (node.y - (12/100) * vs)],
            mode := "markers", symbol := marker.1, msize := sSz,
            color := marker.2, hoverText := lg, name := lg,
            legendgroup := lg, showlegend := upd.1 } : Trace)])
    else (supportSet, ([] : List Trace))
  let arrows :=
    loadArrow K vs node ++
      (match dictFind nodeResD p.1 with
       | some nr => reactionArrow K vs node nr
       | none => [])
  let drawn := arrows.map (addTraceArrow K vs cf)
  (sup.1, sup.2 ++ (drawn.map Prod.fst).flatten, (drawn.map Prod.snd).flatten)

/-- The node loop over the `all_nodes` dict, threading the support legend
set. -/
def nodesFold (K : Trig) (nodeResD : List (ℤ × NodeResult)) (vs cf : ℚ) :
    List (ℤ × Node) → List String → List String × List Trace × List Annot
  | [], st => (st, [], [])
  | p :: ps, st =>
      let r1 := nodeStep K nodeResD vs cf st p
      let r2 := nodesFold K nodeResD vs cf ps r1.1
      (r2.1, r1.2.1 ++ r2.2.1, r1.2.2 ++ r2.2.2)

/-- The top-layer joint markers trace (lines 315-319). -/
def jointsTrace (vs vizMult : ℚ) (nodesD : List (ℤ × Node)) : Trace :=
  { xs := nodesD.map (fun p => some p.2.x)
    ys := nodesD.map (fun p => some p.2.y)
    mode := "markers", color := "#1e3d59"
    msize := max 10 (12 * vs / vizMult)
    showlegend := false }

/-- The persistent joint-id badges (lines 322-328). -/
def jointBadges (cf : ℚ) (nodesD : List (ℤ × Node)) : List Annot :=
  nodesD.map (fun p =>
    { x := p.2.x, y := p.2.y, text := toString p.1,
      fontSize := min 10 (8 + 2 * cf), bgcolor := "#1e3d59" })

/-- The persistent member-id badge of one element (lines 331-352); an
element with an unresolvable endpoint is skipped. -/
def beamLabelFor (nodesD : List (ℤ × Node)) (simD : List (ℤ × ElemResult))
    (cf : ℚ) (e : Element) : Option Annot :=
  match dictFind nodesD e.startId, dictFind nodesD e.endId with
  | some n1, some n2 =>
      some { x := (n1.x + n2.x) / 2, y := (n1.y + n2.y) / 2,
             text := "#" ++ toString e.id,
             fontSize := min 10 (8 + 2 * cf),
             bgcolor := labelBgColor (dictFind simD e.id) }
  | _, _ => none

/-- All member-id badges. -/
def beamLabels (nodesD : List (ℤ × Node)) (simD : List (ℤ × ElemResult))
    (cf : ℚ) (es : List Element) : List Annot :=
  es.filterMap (beamLabelFor nodesD simD cf)

/-! The assembled scene. -/

/-- The rendered scene: the trace list, the annotation list, and the
recommended canvas height returned alongside the figure. -/
structure Scene where
  traces : List Trace
  annots : List Annot
  recHeight : ℤ
deriving DecidableEq, Repr

/-- The body of `draw_bridge` after the input file has been read
successfully (lines 55-384): builds the result dicts, the metrics, then
beams, force legend entries, supports/loads/reactions, the joint marker
trace and the badges.  The only raising step is `min_len`
(a `ValueError` from `min()` on an empty sequence). -/
def render (K : Trig) (bd : BridgeData) (res : Option ResultsData)
    (vizMult : ℚ) : Except Unit Scene :=
  let simD := simResultsDict res
  let nodeResD := nodeResultsDict res
  let nodesD := allNodesDict bd
  let cf := complexityFactor K bd
  match minLenE K bd with
  | .error e => .error e
  | .ok minLen =>
      let vs := visualScaleFrom minLen cf (autoMult bd)
      let beams := beamsFold K nodesD simD vs cf bd.elements []
      let nodesOut := nodesFold K nodeResD vs cf nodesD []
      .ok
        { traces := beams.2.1 ++ forceLegendTraces ++ nodesOut.2.1 ++
            [jointsTrace vs vizMult nodesD]
          annots := beams.2.2 ++ nodesOut.2.2 ++ jointBadges cf nodesD ++
            beamLabels nodesD simD cf bd.elements
          recHeight := recH bd }

/-- `draw_bridge` (lines 34-384): a missing or unparsable model input is
`none` (the function returns `None`, lines 49-53); a missing or unreadable
result input is an absent `ResultsData` (lines 55-64). -/
def draw_bridge (K : Trig) (input : Option BridgeData) (res : Option ResultsData)
    (vizMult : ℚ) : Option (Except Unit Scene) :=
  match input with
  | none => none
  | some bd => some (render K bd res vizMult)

/-! Derived vocabulary used by the verified properties. -/

/-- Squared euclidean distance between two points. -/
def distSq (px py qx qy : ℚ) : ℚ := (px - qx) ^ 2 + (py - qy) ^ 2

/-- The inner gap of the internal-force arrow pair
(`inner_gap_distance`, line 219). -/
def innerGapOf (K : Trig) (vs sx sy ex ey : ℚ) : ℚ :=
  min (vs * (3/5)) (K.sqrt ((ex - sx) ^ 2 + (ey - sy) ^ 2) * (1/10))

/-- The outer gap of the internal-force arrow pair: inner gap plus arrow
length (`outer_gap_distance`, lines 218-220). -/
def outerGapOf (K : Trig) (vs sx sy ex ey : ℚ) : ℚ :=
  innerGapOf K vs sx sy ex ey +
    min (vs * (3/2)) (K.sqrt ((ex - sx) ^ 2 + (ey - sy) ^ 2) * (7/20))

/-- The four beam legend categories. -/
def beamNames : List String :=
  ["Beam (Draft)", "Beam (Unsafe)", "Beam (Caution)", "Beam (Safe)"]

/-- The three support legend categories. -/
def supportNames : List String :=
  ["Pinned Support", "Roller Support", "Fixed (Rigid)"]

/-- The four force legend categories (line 239). -/
def forceNames : List String :=
  ["Tension Force", "Compression Force", "Load Force", "Reaction Force"]

/-- The legend names of the traces that actually show a legend entry. -/
def shownNames (ts : List Trace) : List String :=
  (ts.filter (fun t => t.showlegend)).map (fun t => t.name)

/-- Lift a predicate over the success value of a fallible computation. -/
def onOk {α : Type} (P : α → Prop) : Except Unit α → Prop
  | .error _ => True
  | .ok a => P a

/-- Every legend name is shown at most once in a (successful) scene. -/
def legendAtMostOnce : Except Unit Scene → Prop :=
  onOk (fun s => (shownNames s.traces).Nodup)

/-- In a successful scene, each of the four force legend names is carried
by exactly one trace, and that trace is a legend-only marker at
`x=[None], y=[None]` in its own legend group with the legend shown. -/
def forceLegendExactlyOnce : Except Unit Scene → Prop :=
  onOk (fun s => ∀ n ∈ forceNames,
    (s.traces.countP (fun t => t.name == n)) = 1 ∧
    ∀ t ∈ s.traces, t.name = n →
      t.mode = "markers" ∧ t.xs = [none] ∧ t.ys = [none] ∧
        t.legendgroup = n ∧ t.showlegend = true)

/-- In a successful scene, every member-line trace is in the Draft
category and the only traces in the internal-force legend groups are the
standalone legend markers. -/
def draftOnly : Except Unit Scene → Prop :=
  onOk (fun s =>
    (∀ t ∈ s.traces, t.name ∈ beamNames → t.name = "Beam (Draft)")
    ∧ ∀ t ∈ s.traces,
        (t.legendgroup = "Tension Force" ∨ t.legendgroup = "Compression Force") →
          t.mode = "markers")

/-- The spec's words for the visual-scale formula (section 3): the `0.1`
floor applied to the whole product — to be compared with the source's
`visualScaleFrom`, where the floor is applied before the two factors. -/
def visualScaleSpec (minLen cf am : ℚ) : ℚ :=
  max (1/10) (min (minLen * (3/10)) (3/5) * cf * am)

/-- The spec's words for the recommended height (section 3): the
fractional part of `AspectRatio * 300` rounded — to be compared with the
source's `recH`, which truncates via Python `int()`. -/
def recHSpec (bd : BridgeData) : ℤ :=
  max 500 (min 900 (500 + round (aspectRatio bd * 300)))

/-- The elements whose `start` and `end` both resolve in `all_nodes`
(the spec's notion of the members that count, for comparison with the
`len(all_elements)` the source feeds to the metrics). -/
def resolvableElements (bd : BridgeData) : List Element :=
  bd.elements.filter
    (fun e => (lookupNode bd e.startId).isSome && (lookupNode bd e.endId).isSome)

/-! Concrete inputs used by counterexamples and witnesses. -/

/-- A model whose single member joins two distinct joints at the same
coordinates: its length is `0`, so `min(l for l in lengths if l > 0)`
raises `ValueError`. -/
def zeroLenModel : BridgeData :=
  { nodes := [⟨1, 0, 0, .freeJoint, 0, 0⟩, ⟨2, 0, 0, .freeJoint, 0, 0⟩],
    elements := [⟨1, 1, 2⟩] }

/-- One valid member plus eight members whose `end` joint `99` does not
exist: nine elements in total, one resolvable. -/
def c4Model : BridgeData :=
  { nodes := [⟨1, 0, 0, .freeJoint, 0, 0⟩, ⟨2, 3, 0, .freeJoint, 0, 0⟩],
    elements := ⟨1, 1, 2⟩ :: (List.range 8).map (fun i => ⟨(i : ℤ) + 2, 1, 99⟩) }

/-- A single member of length `0.1`: `ComplexityFactor` is `sqrt 1 = 1`,
`DensityMultiplier` is `0.75`, and `min(min_len * 0.3, 0.6) = 0.03` falls
below the `0.1` floor, so the order in which the floor is applied is
observable. -/
def c5Model : BridgeData :=
  { nodes := [⟨1, 0, 0, .freeJoint, 0, 0⟩, ⟨2, 1/10, 0, .freeJoint, 0, 0⟩],
    elements := [⟨1, 1, 2⟩] }

/-- Two joints with bounding box `5 × 1.68`, so `AspectRatio * 300 = 100.8`:
truncation and rounding differ. -/
def c6Model : BridgeData :=
  { nodes := [⟨1, 0, 0, .freeJoint, 0, 0⟩, ⟨2, 5, 42/25, .freeJoint, 0, 0⟩],
    elements := [] }

/-- The default example bridge of the application (session-state
defaults), used to instantiate witnesses. -/
def demoBridge : BridgeData :=
  { nodes := [⟨1, 0, 0, .pinnedSupport, 0, 0⟩, ⟨2, 4, 0, .freeJoint, 0, -50000⟩,
              ⟨3, 8, 0, .rollerSupport, 0, 0⟩, ⟨4, 4, 4, .freeJoint, 0, 0⟩],
    elements := [⟨1, 1, 2⟩, ⟨2, 2, 3⟩, ⟨3, 1, 4⟩, ⟨4, 2, 4⟩, ⟨5, 4, 3⟩] }

/-! Helper lemmas. -/

theorem pyMin_le_pyMax_of_le : ∀ (xs : List ℚ) (a b : ℚ), a ≤ b → pyMin a xs ≤ pyMax b xs := by
  intro xs
  induction xs with
  | nil => intro a b h; simpa [pyMin, pyMax] using h
  | cons z zs ih =>
      intro a b h
      show pyMin (min a z) zs ≤ pyMax (max b z) zs
      exact ih _ _ (le_trans (le_trans (min_le_left a z) h) (le_max_left b z))

theorem spanY_nonneg (bd : BridgeData) : 0 ≤ spanY bd := by
  unfold spanY
  rcases yCoords bd with _ | ⟨y, ys⟩
  · norm_num
  · exact sub_nonneg.mpr (pyMin_le_pyMax_of_le ys y y le_rfl)

theorem aspectRatio_nonneg (bd : BridgeData) : 0 ≤ aspectRatio bd := by
  unfold aspectRatio
  split_ifs with h
  · exact div_nonneg (spanY_nonneg bd) (le_of_lt h)
  · norm_num

theorem ratTrig_sqrt_sq (a : ℚ) (h : 0 ≤ a) : ratTrig.sqrt (a * a) = a := by
  simp [ratTrig, Rat.sqrt_eq, abs_of_nonneg h]

theorem ratTrig_sqrt_one : ratTrig.sqrt 1 = 1 := by
  have h := ratTrig_sqrt_sq 1 (by norm_num)
  norm_num at h
  exact h

theorem ratTrig_sqrt_hundredth : ratTrig.sqrt (1/100) = 1/10 := by
  have h := ratTrig_sqrt_sq (1/10) (by norm_num)
  norm_num at h
  exact h

theorem aspectRatio_c6 : aspectRatio c6Model = 42/125 := by
  norm_num [aspectRatio, spanX, spanY, xCoords, yCoords, allNodesDict, buildDict,
    dictInsert, pyMax, pyMin, c6Model]

theorem memberLengths_c5 : memberLengths ratTrig c5Model = [1/10] := by
  have h0 : memberLengths ratTrig c5Model =
      [ratTrig.sqrt ((0 - 1/10) ^ 2 + (0 - 0) ^ 2)] := rfl
  rw [h0, show ((0:ℚ) - 1/10) ^ 2 + (0 - 0) ^ 2 = (1/10) * (1/10) by norm_num,
    ratTrig_sqrt_sq (1/10) (by norm_num)]

theorem minLenE_c5 : minLenE ratTrig c5Model = .ok (1/10) := by
  unfold minLenE
  rw [memberLengths_c5]
  norm_num [c5Model, List.min?]

theorem complexityFactor_c5 : complexityFactor ratTrig c5Model = 1 := by
  have h1 : ((c5Model.elements.length : ℚ)) = 1 := by norm_num [c5Model]
  norm_num [complexityFactor, h1, ratTrig_sqrt_one]

/-! Legend bookkeeping lemmas. -/

theorem shownNames_append (l1 l2 : List Trace) :
    shownNames (l1 ++ l2) = shownNames l1 ++ shownNames l2 := by
  simp [shownNames, List.filter_append]

theorem shownNames_nil_of (ts : List Trace) (h : ∀ t ∈ ts, t.showlegend = false) :
    shownNames ts = [] := by
  unfold shownNames
  rw [List.filter_eq_nil_iff.mpr (fun t ht => by simp [h t ht])]
  rfl

theorem shownNames_cons_false (t : Trace) (ts : List Trace) (h : t.showlegend = false) :
    shownNames (t :: ts) = shownNames ts := by
  simp [shownNames, List.filter_cons, h]

theorem shownNames_cons_true (t : Trace) (ts : List Trace) (h : t.showlegend = true) :
    shownNames (t :: ts) = t.name :: shownNames ts := by
  simp [shownNames, List.filter_cons, h]

theorem addTraceArrow_traces (K : Trig) (vs cf : ℚ) (a : ArrowCall) :
    ∀ t ∈ (addTraceArrow K vs cf a).1,
      t.showlegend = false ∧ t.name = "" ∧ t.legendgroup = a.group ∧ t.mode = "lines" := by
  intro t ht
  simp only [addTraceArrow, List.mem_cons, List.not_mem_nil, or_false] at ht
  rcases ht with rfl | rfl | rfl | rfl | rfl | rfl <;> exact ⟨rfl, rfl, rfl, rfl⟩

theorem arrowFlat_traces (K : Trig) (vs cf : ℚ) (arrows : List ArrowCall) :
    ∀ t ∈ ((arrows.map (addTraceArrow K vs cf)).map Prod.fst).flatten,
      t.showlegend = false ∧ t.name = "" ∧
        t.legendgroup ∈ arrows.map ArrowCall.group ∧ t.mode = "lines" := by
  intro t ht
  rw [List.mem_flatten] at ht
  obtain ⟨l, hl, htl⟩ := ht
  rw [List.mem_map] at hl
  obtain ⟨pr, hpr, rfl⟩ := hl
  rw [List.mem_map] at hpr
  obtain ⟨a, ha, rfl⟩ := hpr
  obtain ⟨h1, h2, h3, h4⟩ := addTraceArrow_traces K vs cf a t htl
  exact ⟨h1, h2, by rw [h3]; exact List.mem_map_of_mem _ ha, h4⟩

theorem shownNames_arrowFlat (K : Trig) (vs cf : ℚ) (arrows : List ArrowCall) :
    shownNames ((arrows.map (addTraceArrow K vs cf)).map Prod.fst).flatten = [] :=
  shownNames_nil_of _ (fun t ht => (arrowFlat_traces K vs cf arrows t ht).1)

theorem legendGroupName_mem (r : Option ElemResult) : legendGroupName r ∈ beamNames := by
  rcases r with _ | br
  · simp [legendGroupName, beamNames]
  · simp only [legendGroupName]
    split_ifs <;> simp [beamNames]

theorem supportLabel_mem (s : SupportType) (h : s ≠ SupportType.freeJoint) :
    s.label ∈ supportNames := by
  cases s
  · exact absurd rfl h
  all_goals simp [SupportType.label, supportNames]

theorem loadArrow_group (K : Trig) (vs : ℚ) (node : Node) :
    ∀ a ∈ loadArrow K vs node, a.group = "Load Force" := by
  intro a ha
  simp only [loadArrow] at ha
  split_ifs at ha
  · simp only [List.mem_singleton] at ha
    subst ha
    rfl
  · exact absurd ha (List.not_mem_nil a)

theorem reactionArrow_group (K : Trig) (vs : ℚ) (node : Node) (nr : NodeResult) :
    ∀ a ∈ reactionArrow K vs node nr, a.group = "Reaction Force" := by
  intro a ha
  simp only [reactionArrow] at ha
  split_ifs at ha
  · simp only [List.mem_singleton] at ha
    subst ha
    rfl
  · exact absurd ha (List.not_mem_nil a)

theorem beamStep_cases (K : Trig) (nD : List (ℤ × Node)) (sD : List (ℤ × ElemResult))
    (vs cf : ℚ) (st : List String) (e : Element) :
    ((beamStep K nD sD vs cf st e).1 = st ∧
      shownNames (beamStep K nD sD vs cf st e).2.1 = [])
    ∨ ∃ lg, lg ∈ beamNames ∧ lg ∉ st ∧
        (beamStep K nD sD vs cf st e).1 = st ++ [lg] ∧
        shownNames (beamStep K nD sD vs cf st e).2.1 = [lg] := by
  rcases hS : dictFind nD e.startId with _ | nS
  · exact Or.inl ⟨by simp [beamStep, hS], by simp [beamStep, hS, shownNames]⟩
  rcases hE : dictFind nD e.endId with _ | nE
  · exact Or.inl ⟨by simp [beamStep, hS, hE], by simp [beamStep, hS, hE, shownNames]⟩
  by_cases hlg : legendGroupName (dictFind sD e.id) ∈ st
  · left
    refine ⟨by simp [beamStep, hS, hE, hlg], ?_⟩
    simp only [beamStep, hS, hE, if_pos hlg]
    rw [shownNames_cons_false _ _ rfl, shownNames_arrowFlat]
  · right
    refine ⟨legendGroupName (dictFind sD e.id), legendGroupName_mem _, hlg,
      by simp [beamStep, hS, hE, hlg], ?_⟩
    simp only [beamStep, hS, hE, if_neg hlg]
    rw [shownNames_cons_true _ _ rfl, shownNames_arrowFlat]

theorem beamStep_names (K : Trig) (nD : List (ℤ × Node)) (sD : List (ℤ × ElemResult))
    (vs cf : ℚ) (st : List String) (e : Element) :
    ∀ t ∈ (beamStep K nD sD vs cf st e).2.1, t.name ∈ beamNames ∨ t.name = "" := by
  intro t ht
  rcases hS : dictFind nD e.startId with _ | nS
  · simp [beamStep, hS] at ht
  rcases hE : dictFind nD e.endId with _ | nE
  · simp [beamStep, hS, hE] at ht
  simp only [beamStep, hS, hE, List.mem_cons] at ht
  rcases ht with rfl | ht
  · exact Or.inl (legendGroupName_mem _)
  · exact Or.inr (arrowFlat_traces K vs cf _ t ht).2.1

theorem beamStep_draft (K : Trig) (nD : List (ℤ × Node)) (vs cf : ℚ)
    (st : List String) (e : Element) :
    ∀ t ∈ (beamStep K nD [] vs cf st e).2.1,
      t.name = "Beam (Draft)" ∧ t.legendgroup = "Beam (Draft)" := by
  intro t ht
  rcases hS : dictFind nD e.startId with _ | nS
  · simp [beamStep, hS] at ht
  rcases hE : dictFind nD e.endId with _ | nE
  · simp [beamStep, hS, hE] at ht
  have hres : dictFind ([] : List (ℤ × ElemResult)) e.id = none := rfl
  simp only [beamStep, hS, hE, hres, List.mem_cons] at ht
  rcases ht with rfl | ht
  · exact ⟨rfl, rfl⟩
  · simp only [List.map_nil, List.flatten_nil] at ht
    exact absurd ht (List.not_mem_nil t)

theorem beamsFold_cons (K : Trig) (nD : List (ℤ × Node)) (sD : List (ℤ × ElemResult))
    (vs cf : ℚ) (e : Element) (es : List Element) (st : List String) :
    beamsFold K nD sD vs cf (e :: es) st =
      ((beamsFold K nD sD vs cf es (beamStep K nD sD vs cf st e).1).1,
       (beamStep K nD sD vs cf st e).2.1 ++
         (beamsFold K nD sD vs cf es (beamStep K nD sD vs cf st e).1).2.1,
       (beamStep K nD sD vs cf st e).2.2 ++
         (beamsFold K nD sD vs cf es (beamStep K nD sD vs cf st e).1).2.2) := rfl

theorem beamsFold_legend (K : Trig) (nD : List (ℤ × Node)) (sD : List (ℤ × ElemResult))
    (vs cf : ℚ) :
    ∀ (es : List Element) (st : List String),
      (shownNames (beamsFold K nD sD vs cf es st).2.1).Nodup
      ∧ (∀ n ∈ shownNames (beamsFold K nD sD vs cf es st).2.1, n ∉ st ∧ n ∈ beamNames)
      ∧ ∀ n, (n ∈ st ∨ n ∈ shownNames (beamsFold K nD sD vs cf es st).2.1) →
          n ∈ (beamsFold K nD sD vs cf es st).1 := by
  intro es
  induction es with
  | nil =>
      intro st
      refine ⟨?_, ?_, ?_⟩ <;> simp [beamsFold, shownNames]
  | cons e es ih =>
      intro st
      rw [beamsFold_cons]
      rcases beamStep_cases K nD sD vs cf st e with ⟨hst, hsh⟩ | ⟨lg, hlgB, hlgS, hst, hsh⟩
      · simp only [shownNames_append, hsh, List.nil_append, hst]
        exact ih st
      · simp only [shownNames_append, hsh, List.singleton_append, hst]
        rcases ih (st ++ [lg]) with ⟨ihN, ihM, ihS⟩
        refine ⟨?_, ?_, ?_⟩
        · refine List.nodup_cons.mpr ⟨?_, ihN⟩
          intro hmem
          exact (ihM lg hmem).1 (List.mem_append_right st (List.mem_singleton.mpr rfl))
        · intro n hn
          rcases List.mem_cons.mp hn with rfl | hn
          · exact ⟨hlgS, hlgB⟩
          · exact ⟨fun hmem => (ihM n hn).1 (List.mem_append_left _ hmem), (ihM n hn).2⟩
        · intro n hn
          rcases hn with hn | hn
          · exact ihS n (Or.inl (List.mem_append_left _ hn))
          · rcases List.mem_cons.mp hn with rfl | hn
            · exact ihS n (Or.inl (List.mem_append_right st (List.mem_singleton.mpr rfl)))
            · exact ihS n (Or.inr hn)

theorem beamsFold_names (K : Trig) (nD : List (ℤ × Node)) (sD : List (ℤ × ElemResult))
    (vs cf : ℚ) :
    ∀ (es : List Element) (st : List String),
      ∀ t ∈ (beamsFold K nD sD vs cf es st).2.1, t.name ∈ beamNames ∨ t.name = "" := by
  intro es
  induction es with
  | nil => intro st t ht; simp [beamsFold] at ht
  | cons e es ih =>
      intro st t ht
      rw [beamsFold_cons] at ht
      rcases List.mem_append.mp ht with h | h
      · exact beamStep_names K nD sD vs cf st e t h
      · exact ih _ t h

theorem nodeArrows_group (K : Trig) (nrD : List (ℤ × NodeResult)) (vs : ℚ) (p : ℤ × Node) :
    ∀ a ∈ (loadArrow K vs p.2 ++
        match dictFind nrD p.1 with
        | some nr => reactionArrow K vs p.2 nr
        | none => []),
      a.group = "Load Force" ∨ a.group = "Reaction Force" := by
  intro a ha
  rcases List.mem_append.mp ha with h | h
  · exact Or.inl (loadArrow_group K vs p.2 a h)
  · rcases hnr : dictFind nrD p.1 with _ | nr
    · rw [hnr] at h
      exact absurd h (List.not_mem_nil a)
    · rw [hnr] at h
      exact Or.inr (reactionArrow_group K vs p.2 nr a h)

theorem nodeStep_cases (K : Trig) (nrD : List (ℤ × NodeResult)) (vs cf : ℚ)
    (st : List String) (p : ℤ × Node) :
    ((nodeStep K nrD vs cf st p).1 = st ∧ shownNames (nodeStep K nrD vs cf st p).2.1 = [])
    ∨ ∃ lg, lg ∈ supportNames ∧ lg ∉ st ∧
        (nodeStep K nrD vs cf st p).1 = st ++ [lg] ∧
        shownNames (nodeStep K nrD vs cf st p).2.1 = [lg] := by
  by_cases hfree : p.2.type = SupportType.freeJoint
  · left
    refine ⟨by simp [nodeStep, hfree], ?_⟩
    simp only [nodeStep, hfree, ne_eq, not_true_eq_false, if_false, List.nil_append]
    exact shownNames_arrowFlat K vs cf _
  · by_cases hlg : (p.2.type).label ∈ st
    · left
      refine ⟨by simp [nodeStep, hfree, hlg], ?_⟩
      simp only [nodeStep, ne_eq, hfree, not_false_eq_true, if_true, if_pos hlg,
        List.singleton_append]
      rw [shownNames_cons_false _ _ rfl, shownNames_arrowFlat]
    · right
      refine ⟨(p.2.type).label, supportLabel_mem _ hfree, hlg,
        by simp [nodeStep, hfree, hlg], ?_⟩
      simp only [nodeStep, ne_eq, hfree, not_false_eq_true, if_true, if_neg hlg,
        List.singleton_append]
      rw [shownNames_cons_true _ _ rfl, shownNames_arrowFlat]

theorem nodeStep_names (K : Trig) (nrD : List (ℤ × NodeResult)) (vs cf : ℚ)
    (st : List String) (p : ℤ × Node) :
    ∀ t ∈ (nodeStep K nrD vs cf st p).2.1,
      (t.name ∈ supportNames ∧ t.mode = "markers" ∧ t.legendgroup = t.name)
      ∨ (t.name = "" ∧ t.showlegend = false ∧
          (t.legendgroup = "Load Force" ∨ t.legendgroup = "Reaction Force")) := by
  have harr : ∀ t ∈ (((loadArrow K vs p.2 ++
      match dictFind nrD p.1 with
      | some nr => reactionArrow K vs p.2 nr
      | none => []).map (addTraceArrow K vs cf)).map Prod.fst).flatten,
      t.name = "" ∧ t.showlegend = false ∧
        (t.legendgroup = "Load Force" ∨ t.legendgroup = "Reaction Force") := by
    intro t ht
    obtain ⟨h1, h2, h3, _⟩ := arrowFlat_traces K vs cf _ t ht
    rw [List.mem_map] at h3
    obtain ⟨a, ha, hge⟩ := h3
    exact ⟨h2, h1, hge ▸ nodeArrows_group K nrD vs p a ha⟩
  intro t ht
  by_cases hfree : p.2.type = SupportType.freeJoint
  · simp only [nodeStep, hfree, ne_eq, not_true_eq_false, if_false, List.nil_append] at ht
    exact Or.inr (harr t ht)
  · simp only [nodeStep, ne_eq, hfree, not_false_eq_true, if_true,
      List.singleton_append, List.mem_cons] at ht
    rcases ht with rfl | ht
    · exact Or.inl ⟨supportLabel_mem _ hfree, rfl, rfl⟩
    · exact Or.inr (harr t ht)

theorem nodesFold_cons (K : Trig) (nrD : List (ℤ × NodeResult)) (vs cf : ℚ)
    (p : ℤ × Node) (ps : List (ℤ × Node)) (st : List String) :
    nodesFold K nrD vs cf (p :: ps) st =
      ((nodesFold K nrD vs cf ps (nodeStep K nrD vs cf st p).1).1,
       (nodeStep K nrD vs cf st p).2.1 ++
         (nodesFold K nrD vs cf ps (nodeStep K nrD vs cf st p).1).2.1,
       (nodeStep K nrD vs cf st p).2.2 ++
         (nodesFold K nrD vs cf ps (nodeStep K nrD vs cf st p).1).2.2) := rfl

theorem nodesFold_legend (K : Trig) (nrD : List (ℤ × NodeResult)) (vs cf : ℚ) :
    ∀ (ps : List (ℤ × Node)) (st : List String),
      (shownNames (nodesFold K nrD vs cf ps st).2.1).Nodup
      ∧ (∀ n ∈ shownNames (nodesFold K nrD vs cf ps st).2.1, n ∉ st ∧ n ∈ supportNames)
      ∧ ∀ n, (n ∈ st ∨ n ∈ shownNames (nodesFold K nrD vs cf ps st).2.1) →
          n ∈ (nodesFold K nrD vs cf ps st).1 := by
  intro ps
  induction ps with
  | nil =>
      intro st
      refine ⟨?_, ?_, ?_⟩ <;> simp [nodesFold, shownNames]
  | cons p ps ih =>
      intro st
      rw [nodesFold_cons]
      rcases nodeStep_cases K nrD vs cf st p with ⟨hst, hsh⟩ | ⟨lg, hlgB, hlgS, hst, hsh⟩
      · simp only [shownNames_append, hsh, List.nil_append, hst]
        exact ih st
      · simp only [shownNames_append, hsh, List.singleton_append, hst]
        rcases ih (st ++ [lg]) with ⟨ihN, ihM, ihS⟩
        refine ⟨?_, ?_, ?_⟩
        · refine List.nodup_cons.mpr ⟨?_, ihN⟩
          intro hmem
          exact (ihM lg hmem).1 (List.mem_append_right st (List.mem_singleton.mpr rfl))
        · intro n hn
          rcases List.mem_cons.mp hn with rfl | hn
          · exact ⟨hlgS, hlgB⟩
          · exact ⟨fun hmem => (ihM n hn).1 (List.mem_append_left _ hmem), (ihM n hn).2⟩
        · intro n hn
          rcases hn with hn | hn
          · exact ihS n (Or.inl (List.mem_append_left _ hn))
          · rcases List.mem_cons.mp hn with rfl | hn
            · exact ihS n (Or.inl (List.mem_append_right st (List.mem_singleton.mpr rfl)))
            · exact ihS n (Or.inr hn)

theorem nodesFold_names (K : Trig) (nrD : List (ℤ × NodeResult)) (vs cf : ℚ) :
    ∀ (ps : List (ℤ × Node)) (st : List String),
      ∀ t ∈ (nodesFold K nrD vs cf ps st).2.1,
        (t.name ∈ supportNames ∧ t.mode = "markers" ∧ t.legendgroup = t.name)
        ∨ (t.name = "" ∧ t.showlegend = false ∧
            (t.legendgroup = "Load Force" ∨ t.legendgroup = "Reaction Force")) := by
  intro ps
  induction ps with
  | nil => intro st t ht; simp [nodesFold] at ht
  | cons p ps ih =>
      intro st t ht
      rw [nodesFold_cons] at ht
      rcases List.mem_append.mp ht with h | h
      · exact nodeStep_names K nrD vs cf st p t h
      · exact ih _ t h

theorem beamsFold_draft (K : Trig) (nD : List (ℤ × Node)) (vs cf : ℚ) :
    ∀ (es : List Element) (st : List String),
      ∀ t ∈ (beamsFold K nD [] vs cf es st).2.1,
        t.name = "Beam (Draft)" ∧ t.legendgroup = "Beam (Draft)" := by
  intro es
  induction es with
  | nil => intro st t ht; simp [beamsFold] at ht
  | cons e es ih =>
      intro st t ht
      rw [beamsFold_cons] at ht
      rcases List.mem_append.mp ht with h | h
      · exact beamStep_draft K nD vs cf st e t h
      · exact ih _ t h

/-! String-table facts and scene-level helpers. -/

theorem forceNames_nodup : forceNames.Nodup := by decide

theorem beam_not_force (a : String) (h : a ∈ beamNames) : a ∉ forceNames := by
  fin_cases h <;> decide

theorem beam_not_support (a : String) (h : a ∈ beamNames) : a ∉ supportNames := by
  fin_cases h <;> decide

theorem force_not_support (a : String) (h : a ∈ forceNames) : a ∉ supportNames := by
  fin_cases h <;> decide

theorem force_name_facts (n : String) (hn : n ∈ forceNames) :
    n ∉ beamNames ∧ n ∉ supportNames ∧ n ≠ "" := by
  fin_cases hn <;> exact ⟨by decide, by decide, by decide⟩

theorem support_mem_facts (a : String) (h : a ∈ supportNames) :
    a ∉ beamNames ∧ a ≠ "Tension Force" ∧ a ≠ "Compression Force" := by
  fin_cases h <;> exact ⟨by decide, by decide, by decide⟩

theorem shownNames_forceLegend : shownNames forceLegendTraces = forceNames := rfl

theorem forceLegend_facts :
    ∀ t ∈ forceLegendTraces, t.name ∉ beamNames ∧ t.mode = "markers" := by decide

theorem forceLegend_countP (n : String) (hn : n ∈ forceNames) :
    forceLegendTraces.countP (fun t => t.name == n) = 1 := by
  fin_cases hn <;> decide

theorem forceLegend_props (n : String) (hn : n ∈ forceNames) :
    ∀ t ∈ forceLegendTraces, t.name = n →
      t.mode = "markers" ∧ t.xs = [none] ∧ t.ys = [none] ∧
        t.legendgroup = n ∧ t.showlegend = true := by
  fin_cases hn <;> decide

theorem countP_name_zero (l : List Trace) (n : String) (h : ∀ t ∈ l, t.name ≠ n) :
    l.countP (fun t => t.name == n) = 0 :=
  List.countP_eq_zero.mpr (fun t ht => by simp [h t ht])

theorem empty_name_facts : ("" : String) ∉ beamNames ∧ ("" : String) ∉ supportNames ∧
    ("" : String) ≠ "Tension Force" ∧ ("" : String) ≠ "Compression Force" := by decide

theorem jointsTrace_fields (vs vizMult : ℚ) (nD : List (ℤ × Node)) :
    (jointsTrace vs vizMult nD).name = "" ∧ (jointsTrace vs vizMult nD).legendgroup = "" ∧
      (jointsTrace vs vizMult nD).showlegend = false ∧
      (jointsTrace vs vizMult nD).mode = "markers" :=
  ⟨rfl, rfl, rfl, rfl⟩

theorem mem_four_segments {t : Trace} {A B C D : List Trace} (ht : t ∈ A ++ B ++ C ++ D) :
    t ∈ A ∨ t ∈ B ∨ t ∈ C ∨ t ∈ D := by
  rcases List.mem_append.mp ht with h | h
  · rcases List.mem_append.mp h with h2 | h2
    · rcases List.mem_append.mp h2 with h3 | h3
      · exact Or.inl h3
      · exact Or.inr (Or.inl h3)
    · exact Or.inr (Or.inr (Or.inl h2))
  · exact Or.inr (Or.inr (Or.inr h))

theorem legend_nodup_general (K : Trig) (nD : List (ℤ × Node)) (sD : List (ℤ × ElemResult))
    (nrD : List (ℤ × NodeResult)) (vs cf vs2 cf2 : ℚ) (es : List Element)
    (ps : List (ℤ × Node)) (jt : Trace) (hjt : jt.showlegend = false) :
    (shownNames ((beamsFold K nD sD vs cf es []).2.1 ++ forceLegendTraces ++
      (nodesFold K nrD vs2 cf2 ps []).2.1 ++ [jt])).Nodup := by
  obtain ⟨hbN, hbM, _⟩ := beamsFold_legend K nD sD vs cf es []
  obtain ⟨hnN, hnM, _⟩ := nodesFold_legend K nrD vs2 cf2 ps []
  have hjt0 : shownNames [jt] = [] :=
    shownNames_nil_of _ (by intro t ht; rw [List.mem_singleton] at ht; subst ht; exact hjt)
  rw [shownNames_append, shownNames_append, shownNames_append, hjt0, List.append_nil,
    shownNames_forceLegend]
  refine List.Nodup.append (List.Nodup.append hbN forceNames_nodup ?_) hnN ?_
  · intro a ha haf
    exact beam_not_force a (hbM a ha).2 haf
  · intro a ha hasn
    have hsup := (hnM a hasn).2
    rcases List.mem_append.mp ha with h | h
    · exact beam_not_support a (hbM a h).2 hsup
    · exact force_not_support a h hsup

theorem memberLengths_nil_of_elements_nil (K : Trig) (bd : BridgeData)
    (h : bd.elements = []) : memberLengths K bd = [] := by
  unfold memberLengths
  rw [h]
  rfl

theorem minLenE_error_iff (K : Trig) (bd : BridgeData) :
    minLenE K bd = .error () ↔
      (memberLengths K bd ≠ [] ∧ (memberLengths K bd).filter (fun l => 0 < l) = []) := by
  unfold minLenE
  by_cases he : bd.elements.isEmpty
  · have h0 : memberLengths K bd = [] :=
      memberLengths_nil_of_elements_nil K bd (List.isEmpty_iff.mp he)
    simp [he, h0]
  · rw [if_neg (by simpa using he)]
    by_cases hl : (memberLengths K bd).isEmpty
    · rw [if_pos hl]
      simp [List.isEmpty_iff.mp hl]
    · rw [if_neg hl]
      rcases hmin : ((memberLengths K bd).filter (fun l => 0 < l)).min? with _ | m
      · rw [hmin]
        constructor
        · intro _
          refine ⟨fun hnil => hl (by rw [hnil]; rfl), List.min?_eq_none_iff.mp hmin⟩
        · intro _
          rfl
      · rw [hmin]
        constructor
        · intro hcontra
          exact absurd hcontra (by simp)
        · rintro ⟨hne, hfil⟩
          rw [hfil] at hmin
          simp at hmin

theorem memberLengths_zeroLen : memberLengths ratTrig zeroLenModel = [0] := by
  have h0 : memberLengths ratTrig zeroLenModel =
      [ratTrig.sqrt ((0 - 0) ^ 2 + (0 - 0) ^ 2)] := rfl
  rw [h0, show ((0:ℚ) - 0) ^ 2 + (0 - 0) ^ 2 = 0 * 0 by norm_num,
    ratTrig_sqrt_sq 0 le_rfl]

theorem minLenE_zeroLen : minLenE ratTrig zeroLenModel = .error () := by
  unfold minLenE
  rw [memberLengths_zeroLen]
  norm_num [zeroLenModel, List.min?]

/-! Claim theorems. -/

/-- C1: safety classification is a pure function of the safety factor:
`safetyFactor < 1` gives Unsafe (red `#ef4444`), `1 ≤ safetyFactor < 2`
gives Caution (orange `#f59e0b`), `2 ≤ safetyFactor` gives Safe (green
`#10b981`), the boundary values `1` and `2` falling in the next-safer
band; a member without a result is Draft (neutral blue `#3b82f6`); and
the member-line color and the member-id badge color agree for every
result. -/
theorem safety_classification_pure :
    (∀ r : ElemResult, r.safety < 1 →
      beamStyle (some r) = ("#ef4444", 6) ∧ legendGroupName (some r) = "Beam (Unsafe)" ∧
        labelBgColor (some r) = "#ef4444")
    ∧ (∀ r : ElemResult, 1 ≤ r.safety → r.safety < 2 →
      beamStyle (some r) = ("#f59e0b", 5) ∧ legendGroupName (some r) = "Beam (Caution)" ∧
        labelBgColor (some r) = "#f59e0b")
    ∧ (∀ r : ElemResult, 2 ≤ r.safety →
      beamStyle (some r) = ("#10b981", 6) ∧ legendGroupName (some r) = "Beam (Safe)" ∧
        labelBgColor (some r) = "#10b981")
    ∧ (beamStyle none = ("#3b82f6", 4) ∧ legendGroupName none = "Beam (Draft)" ∧
        labelBgColor none = "#3b82f6")
    ∧ ∀ r : Option ElemResult, (beamStyle r).1 = labelBgColor r := by
  refine ⟨?_, ?_, ?_, ⟨rfl, rfl, rfl⟩, ?_⟩
  · intro r h
    simp [beamStyle, legendGroupName, labelBgColor, h]
  · intro r h1 h2
    simp [beamStyle, legendGroupName, labelBgColor, not_lt.mpr h1, h2]
  · intro r h
    have h1 : ¬ r.safety < 1 := not_lt.mpr (le_trans (by norm_num) h)
    simp [beamStyle, legendGroupName, labelBgColor, h1, not_lt.mpr h]
  · intro r
    cases r with
    | none => rfl
    | some br =>
        simp only [beamStyle, labelBgColor]
        split_ifs <;> rfl

theorem safety_classification_pure_witness :
    beamStyle (some ⟨1, 0, 0, 1/2⟩) = ("#ef4444", 6)
    ∧ beamStyle (some ⟨1, 0, 0, 1⟩) = ("#f59e0b", 5)
    ∧ beamStyle (some ⟨1, 0, 0, 2⟩) = ("#10b981", 6) :=
  ⟨(safety_classification_pure.1 ⟨1, 0, 0, 1/2⟩ (by norm_num)).1,
   (safety_classification_pure.2.1 ⟨1, 0, 0, 1⟩ (by norm_num) (by norm_num)).1,
   (safety_classification_pure.2.2.1 ⟨1, 0, 0, 2⟩ (by norm_num)).1⟩

/-- C8: for every model (any member count, degenerate geometry included),
the visual scale is positive whenever the metric computation completes,
and the recommended height always lies in `[500, 900]`. -/
theorem metrics_bounds_invariant (K : Trig) (bd : BridgeData) :
    onOk (fun v => 0 < v) (visualScaleE K bd)
    ∧ 500 ≤ recH bd ∧ recH bd ≤ 900 := by
  refine ⟨?_, le_max_left _ _, max_le (by norm_num) (min_le_left _ _)⟩
  unfold visualScaleE
  rcases minLenE K bd with _ | ml
  · exact trivial
  · show 0 < visualScaleFrom ml (complexityFactor K bd) (autoMult bd)
    have h1 : (0 : ℚ) < max (1/10) (min (ml * (3/10)) (3/5)) :=
      lt_of_lt_of_le (by norm_num) (le_max_left _ _)
    have h2 : (0 : ℚ) < complexityFactor K bd :=
      lt_of_lt_of_le (by norm_num) (le_max_left _ _)
    have h3 : (0 : ℚ) < autoMult bd := by
      unfold autoMult; split_ifs <;> norm_num
    exact mul_pos (mul_pos h1 h2) h3

/-- C6 counterexample: on `c6Model` (aspect ratio `0.336`, so
`AspectRatio * 300 = 100.8`) the source computes `600` via `int()`
truncation, while the claimed `round` formula gives `601`. -/
theorem recommended_height_rounding_counterexample :
    recH c6Model = 600 ∧ recHSpec c6Model = 601 ∧ recH c6Model ≠ recHSpec c6Model := by
  have h1 : recH c6Model = 600 := by norm_num [recH, aspectRatio_c6, pyInt]
  have h2 : recHSpec c6Model = 601 := by norm_num [recHSpec, aspectRatio_c6, round_eq]
  exact ⟨h1, h2, by rw [h1, h2]; decide⟩

/-- C6 amended: the recommended height is
`clamp(500 + trunc(AspectRatio * 300), 500, 900)` with Python `int()`
truncation (which here agrees with the floor, the aspect ratio being
nonnegative), not rounding. -/
theorem recommended_height_truncation_amended (bd : BridgeData) (h : bd.nodes ≠ []) :
    recH bd = max 500 (min 900 (500 + pyInt (aspectRatio bd * 300)))
    ∧ pyInt (aspectRatio bd * 300) = ⌊aspectRatio bd * 300⌋
    ∧ aspectRatio bd = (if 0 < spanX bd then spanY bd / spanX bd else 1) := by
  refine ⟨rfl, ?_, rfl⟩
  unfold pyInt
  rw [if_pos]
  exact mul_nonneg (aspectRatio_nonneg bd) (by norm_num)

theorem recommended_height_truncation_amended_witness :
    recH c6Model = max 500 (min 900 (500 + pyInt (aspectRatio c6Model * 300))) :=
  (recommended_height_truncation_amended c6Model (by simp [c6Model])).1

/-- C5 counterexample: on `c5Model` the source's visual scale is
`max(0.1, min(0.03, 0.6)) * 1 * 0.75 = 0.075`, while the claimed formula
(floor applied to the whole product) gives `max(0.1, 0.03 * 1 * 0.75) = 0.1`. -/
theorem visual_scale_floor_order_counterexample :
    ratTrig.sqrt (1/100) = 1/10
    ∧ minLenE ratTrig c5Model = .ok (1/10)
    ∧ complexityFactor ratTrig c5Model = 1
    ∧ autoMult c5Model = 3/4
    ∧ visualScaleE ratTrig c5Model = .ok (3/40)
    ∧ visualScaleSpec (1/10) 1 (3/4) = 1/10
    ∧ (3/40 : ℚ) ≠ 1/10 := by
  have ham : autoMult c5Model = 3/4 := by norm_num [autoMult, c5Model]
  have hvs : visualScaleE ratTrig c5Model = .ok (3/40) := by
    rw [visualScaleE, minLenE_c5]
    show Except.ok (visualScaleFrom (1/10) (complexityFactor ratTrig c5Model) (autoMult c5Model)) = _
    rw [complexityFactor_c5, ham]
    norm_num [visualScaleFrom]
  refine ⟨ratTrig_sqrt_hundredth, minLenE_c5, complexityFactor_c5, ham, hvs, ?_, by norm_num⟩
  norm_num [visualScaleSpec]

/-- C5 amended: the visual scale is
`max(0.1, min(MinMemberLength * 0.3, 0.6)) * ComplexityFactor *
DensityMultiplier` — the `0.1` floor applies to the clamped min-length
term before the two factors are multiplied in, not to the product. -/
theorem visual_scale_formula_amended (K : Trig) (bd : BridgeData) (ml : ℚ)
    (h : minLenE K bd = .ok ml) :
    visualScaleE K bd =
      .ok (max (1/10) (min (ml * (3/10)) (3/5)) * complexityFactor K bd * autoMult bd) := by
  unfold visualScaleE
  rw [h]
  rfl

theorem visual_scale_formula_amended_witness :
    visualScaleE ratTrig c5Model =
      .ok (max (1/10) (min ((1/10) * (3/10)) (3/5)) * complexityFactor ratTrig c5Model *
        autoMult c5Model) :=
  visual_scale_formula_amended ratTrig c5Model (1/10) minLenE_c5

/-- C2 counterexample: on a model whose only member joins two distinct
joints at identical coordinates, `draw_bridge` raises (`ValueError` from
`min()` over an empty sequence at line 87) instead of degrading
gracefully. -/
theorem render_raises_on_zero_length_model :
    draw_bridge ratTrig (some zeroLenModel) none (3/5) = some (.error ()) := by
  simp only [draw_bridge, render, minLenE_zeroLen]

/-- C2 amended: a missing or unreadable model input produces no scene;
rendering succeeds exactly when it is not the case that some member is
resolvable and every resolvable member has zero length (in that case
`min()` raises); and a missing result input yields a scene whose member
lines are all in the Draft category, with no internal-force arrows. -/
theorem render_graceful_amended (K : Trig) (res : Option ResultsData) (vizMult : ℚ)
    (bd : BridgeData) :
    draw_bridge K none res vizMult = none
    ∧ ((∃ s, render K bd res vizMult = .ok s) ↔
        ¬(memberLengths K bd ≠ [] ∧ (memberLengths K bd).filter (fun l => 0 < l) = []))
    ∧ draftOnly (render K bd none vizMult) := by
  refine ⟨rfl, ?_, ?_⟩
  · rcases hml : minLenE K bd with e | ml
    · cases e
      constructor
      · rintro ⟨s, hs⟩
        simp [render, hml] at hs
      · intro hnot
        exact absurd ((minLenE_error_iff K bd).mp hml) hnot
    · refine iff_of_true ?_ ?_
      · rcases hr : render K bd res vizMult with er | s
        · exfalso
          simp only [render, hml] at hr
          exact Except.noConfusion hr
        · exact ⟨s, rfl⟩
      · intro hc
        rw [(minLenE_error_iff K bd).mpr hc] at hml
        exact absurd hml (by simp)
  · rcases hml : minLenE K bd with e | ml
    · simp [draftOnly, onOk, render, hml]
    · simp only [draftOnly, onOk, render, hml, simResultsDict, nodeResultsDict]
      constructor
      · intro t ht hbn
        rcases mem_four_segments ht with h | h | h | h
        · exact (beamsFold_draft K (allNodesDict bd) _ _ bd.elements [] t h).1
        · exact absurd hbn (forceLegend_facts t h).1
        · rcases nodesFold_names K [] _ _ (allNodesDict bd) [] t h with ⟨hs, _, _⟩ | ⟨hs, _, _⟩
          · exact absurd hbn (support_mem_facts _ hs).1
          · rw [hs] at hbn
            exact absurd hbn empty_name_facts.1
        · rw [List.mem_singleton] at h
          subst h
          rw [(jointsTrace_fields _ _ _).1] at hbn
          exact absurd hbn empty_name_facts.1
      · intro t ht hlg
        rcases mem_four_segments ht with h | h | h | h
        · have hd := (beamsFold_draft K (allNodesDict bd) _ _ bd.elements [] t h).2
          rcases hlg with hlg | hlg <;> rw [hd] at hlg <;> exact absurd hlg (by decide)
        · exact (forceLegend_facts t h).2
        · rcases nodesFold_names K [] _ _ (allNodesDict bd) [] t h with ⟨hs, hm, hgr⟩ | ⟨_, _, hgr⟩
          · exact hm
          · rcases hlg with hlg | hlg <;> rcases hgr with hgr | hgr <;>
              rw [hgr] at hlg <;> exact absurd hlg (by decide)
        · rw [List.mem_singleton] at h
          subst h
          rcases hlg with hlg | hlg <;> rw [(jointsTrace_fields _ _ _).2.1] at hlg <;>
            exact absurd hlg (by decide)

theorem render_graceful_amended_witness :
    ∃ s, render ratTrig demoBridge none (3/5) = .ok s := by
  refine (render_graceful_amended ratTrig none (3/5) demoBridge).2.1.mpr ?_
  intro hc
  have h4 : (4 : ℚ) ∈ memberLengths ratTrig demoBridge := by
    have h0 : memberLengths ratTrig demoBridge =
        [ratTrig.sqrt ((0 - 4) ^ 2 + (0 - 0) ^ 2),
         ratTrig.sqrt ((4 - 8) ^ 2 + (0 - 0) ^ 2),
         ratTrig.sqrt ((0 - 4) ^ 2 + (0 - 4) ^ 2),
         ratTrig.sqrt ((4 - 4) ^ 2 + (0 - 4) ^ 2),
         ratTrig.sqrt ((4 - 8) ^ 2 + (4 - 0) ^ 2)] := rfl
    rw [h0]
    have h1 : ratTrig.sqrt ((0 - 4) ^ 2 + ((0:ℚ) - 0) ^ 2) = 4 := by
      rw [show ((0:ℚ) - 4) ^ 2 + (0 - 0) ^ 2 = 4 * 4 by norm_num]
      exact ratTrig_sqrt_sq 4 (by norm_num)
    rw [h1]
    exact List.mem_cons_self _ _
  have hpos : (4 : ℚ) ∈ (memberLengths ratTrig demoBridge).filter (fun l => 0 < l) :=
    List.mem_filter.mpr ⟨h4, by norm_num⟩
  rw [hc.2] at hpos
  exact absurd hpos (List.not_mem_nil _)

/-- C9: within a single render, each legend category is shown at most
once, however many primitives belong to it; the legend-tracking sets are
local to the render call, so every call starts fresh. -/
theorem legend_emitted_at_most_once (K : Trig) (bd : BridgeData)
    (res : Option ResultsData) (vizMult : ℚ) :
    legendAtMostOnce (render K bd res vizMult) := by
  rcases hml : minLenE K bd with e | ml
  · simp [render, hml, legendAtMostOnce, onOk]
  · simp only [render, hml, legendAtMostOnce, onOk]
    exact legend_nodup_general _ _ _ _ _ _ _ _ _ _ _ rfl

/-- C10: every successful render carries each of the four force legend
names on exactly one trace — the standalone legend-only marker emitted at
lines 239-240 — even when no arrow of that kind is drawn; and the traces
built by `add_trace_arrow` never contribute legend entries. -/
theorem force_legend_exactly_once (K : Trig) (bd : BridgeData)
    (res : Option ResultsData) (vizMult : ℚ) :
    forceLegendExactlyOnce (render K bd res vizMult)
    ∧ ∀ (vs cf : ℚ) (a : ArrowCall),
        (addTraceArrow K vs cf a).1.filter (fun t => t.showlegend) = [] := by
  constructor
  · rcases hml : minLenE K bd with e | ml
    · simp [render, hml, forceLegendExactlyOnce, onOk]
    · simp only [render, hml, forceLegendExactlyOnce, onOk]
      intro n hn
      obtain ⟨hnb, hns, hne⟩ := force_name_facts n hn
      constructor
      · rw [List.countP_append, List.countP_append, List.countP_append]
        rw [countP_name_zero _ n (fun t ht hname =>
          (beamsFold_names K _ _ _ _ bd.elements [] t ht).elim
            (fun hb => hnb (hname ▸ hb)) (fun hb => hne (by rw [← hname, hb])))]
        rw [forceLegend_countP n hn]
        rw [countP_name_zero _ n (fun t ht hname =>
          (nodesFold_names K _ _ _ _ [] t ht).elim
            (fun hb => hns (hname ▸ hb.1)) (fun hb => hne (by rw [← hname, hb.1])))]
        rw [countP_name_zero _ n (fun t ht hname => by
          rw [List.mem_singleton] at ht
          subst ht
          rw [(jointsTrace_fields _ _ _).1] at hname
          exact hne hname.symm)]
      · intro t ht hname
        rcases mem_four_segments ht with h | h | h | h
        · rcases beamsFold_names K _ _ _ _ bd.elements [] t h with hb | hb
          · exact absurd (hname ▸ hb) hnb
          · rw [hb] at hname
            exact absurd hname.symm hne
        · exact forceLegend_props n hn t h hname
        · rcases nodesFold_names K _ _ _ _ [] t h with ⟨hb, _, _⟩ | ⟨hb, _, _⟩
          · exact absurd (hname ▸ hb) hns
          · rw [hb] at hname
            exact absurd hname.symm hne
        · rw [List.mem_singleton] at h
          subst h
          rw [(jointsTrace_fields _ _ _).1] at hname
          exact absurd hname.symm hne
  · intro vs cf a
    exact List.filter_eq_nil_iff.mpr
      (fun t ht => by simp [(addTraceArrow_traces K vs cf a t ht).1])

theorem filterMap_filter_eq {α β : Type} (f : α → Option β) (p : α → Bool)
    (hfp : ∀ a, p a = false → f a = none) :
    ∀ l : List α, l.filterMap f = (l.filter p).filterMap f := by
  intro l
  induction l with
  | nil => rfl
  | cons a as ih =>
      by_cases hpa : p a = true
      · simp only [List.filter_cons, if_pos hpa, List.filterMap_cons, ih]
      · have hpf : p a = false := by revert hpa; cases p a <;> simp
        simp only [List.filter_cons, hpf, Bool.false_eq_true, if_false, List.filterMap_cons,
          hfp a hpf, ih]

theorem memberLengths_resolvable (K : Trig) (bd : BridgeData) :
    memberLengths K bd = memberLengths K { bd with elements := resolvableElements bd } := by
  have hfp : ∀ a : Element,
      ((lookupNode bd a.startId).isSome && (lookupNode bd a.endId).isSome) = false →
      (match lookupNode bd a.startId, lookupNode bd a.endId with
        | some ns, some ne => some (K.sqrt ((ns.x - ne.x) ^ 2 + (ns.y - ne.y) ^ 2))
        | _, _ => none) = none := by
    intro a hpa
    rcases hS : lookupNode bd a.startId with _ | nS
    · simp only [hS]
    · rcases hE : lookupNode bd a.endId with _ | nE
      · simp only [hS, hE]
      · exfalso
        rw [hS, hE] at hpa
        simp at hpa
  exact filterMap_filter_eq _ _ hfp bd.elements

/-- C4 counterexample: on `c4Model` (one resolvable member plus eight
members referencing the non-existent joint `99`) the density multiplier is
computed from all nine elements (`0.65`), not from the single resolvable
one (`0.75`): dangling members are not excluded from the member-count
metrics. -/
theorem invalid_member_counts_in_metrics :
    resolvableElements c4Model = [⟨1, 1, 2⟩]
    ∧ autoMult c4Model = 13/20
    ∧ autoMult { c4Model with elements := resolvableElements c4Model } = 3/4
    ∧ autoMult c4Model ≠ autoMult { c4Model with elements := resolvableElements c4Model } := by
  refine ⟨rfl, rfl, rfl, ?_⟩
  show (13/20 : ℚ) ≠ 3/4
  norm_num

/-- C4 amended: a member whose `start` or `end` does not resolve yields no
traces, no annotations and no member-id badge, and is excluded from the
min-member-length metric; but `ComplexityFactor` and `DensityMultiplier`
are computed from the full element count, dangling members included. -/
theorem invalid_member_zero_primitives_amended (K : Trig) (bd : BridgeData)
    (simD : List (ℤ × ElemResult)) (vs cf : ℚ) (st : List String) (e : Element)
    (h : lookupNode bd e.startId = none ∨ lookupNode bd e.endId = none) :
    beamStep K (allNodesDict bd) simD vs cf st e = (st, [], [])
    ∧ beamLabelFor (allNodesDict bd) simD cf e = none
    ∧ memberLengths K bd = memberLengths K { bd with elements := resolvableElements bd }
    ∧ complexityFactor K bd = max (7/20) (K.sqrt (12 / max 12 (bd.elements.length : ℚ)))
    ∧ autoMult bd = (if bd.elements.length > 20 then 11/20
        else if bd.elements.length < 8 then 3/4 else 13/20) := by
  refine ⟨?_, ?_, memberLengths_resolvable K bd, rfl, rfl⟩
  · rcases h with h | h
    · have h' : dictFind (allNodesDict bd) e.startId = none := h
      simp [beamStep, h']
    · have h' : dictFind (allNodesDict bd) e.endId = none := h
      rcases hS : dictFind (allNodesDict bd) e.startId with _ | nS
      · simp [beamStep, hS]
      · simp [beamStep, hS, h']
  · rcases h with h | h
    · have h' : dictFind (allNodesDict bd) e.startId = none := h
      simp [beamLabelFor, h']
    · have h' : dictFind (allNodesDict bd) e.endId = none := h
      rcases hS : dictFind (allNodesDict bd) e.startId with _ | nS
      · simp [beamLabelFor, hS]
      · simp [beamLabelFor, hS, h']

theorem invalid_member_zero_primitives_amended_witness :
    beamStep ratTrig (allNodesDict c4Model) [] (9/20) 1 [] ⟨2, 1, 99⟩ = ([], [], []) :=
  (invalid_member_zero_primitives_amended ratTrig c4Model [] (9/20) 1 [] ⟨2, 1, 99⟩
    (Or.inr rfl)).1

/-- C3: for an analyzed member with nonzero length, the two internal-force
arrows lie on the member axis, are reflections of each other through the
member midpoint (they straddle it), and, writing the inner and outer gap
distances of lines 218-220: under compression (`force ≤ 0`) each arrow has
its tail at the outer gap and its tip at the inner gap — strictly closer
to the midpoint, so the pair points inward — while under tension the two
are swapped, so the pair points outward; and swapping the member's start
and end joints exchanges the two arrows (the sign `s` arrow becomes the
sign `-s` arrow), leaving the drawn pair, and hence the visual direction
semantics, unchanged. -/
theorem internal_arrow_direction_semantics (K : Trig) (vs sx sy ex ey force : ℚ)
    (hforce : 1/10 < |force|) (hvs : 0 < vs)
    (hL : 0 < K.sqrt ((ex - sx) ^ 2 + (ey - sy) ^ 2))
    (hsq : K.sqrt ((ex - sx) ^ 2 + (ey - sy) ^ 2) ^ 2 = (ex - sx) ^ 2 + (ey - sy) ^ 2) :
    internalForceArrows K vs sx sy ex ey force =
      [internalArrowAt K vs sx sy ex ey force 1, internalArrowAt K vs sx sy ex ey force (-1)]
    ∧ (∀ sign : ℚ,
        ((internalArrowAt K vs sx sy ex ey force sign).startX - (sx + ex) / 2) * (ey - sy) =
          ((internalArrowAt K vs sx sy ex ey force sign).startY - (sy + ey) / 2) * (ex - sx)
        ∧ ((internalArrowAt K vs sx sy ex ey force sign).endX - (sx + ex) / 2) * (ey - sy) =
          ((internalArrowAt K vs sx sy ex ey force sign).endY - (sy + ey) / 2) * (ex - sx))
    ∧ ((internalArrowAt K vs sx sy ex ey force (-1)).startX =
          (sx + ex) - (internalArrowAt K vs sx sy ex ey force 1).startX
        ∧ (internalArrowAt K vs sx sy ex ey force (-1)).startY =
          (sy + ey) - (internalArrowAt K vs sx sy ex ey force 1).startY
        ∧ (internalArrowAt K vs sx sy ex ey force (-1)).endX =
          (sx + ex) - (internalArrowAt K vs sx sy ex ey force 1).endX
        ∧ (internalArrowAt K vs sx sy ex ey force (-1)).endY =
          (sy + ey) - (internalArrowAt K vs sx sy ex ey force 1).endY)
    ∧ (∀ sign : ℚ, sign = 1 ∨ sign = -1 →
        (force ≤ 0 →
          distSq (internalArrowAt K vs sx sy ex ey force sign).startX
              (internalArrowAt K vs sx sy ex ey force sign).startY
              ((sx + ex) / 2) ((sy + ey) / 2) = (outerGapOf K vs sx sy ex ey) ^ 2
          ∧ distSq (internalArrowAt K vs sx sy ex ey force sign).endX
              (internalArrowAt K vs sx sy ex ey force sign).endY
              ((sx + ex) / 2) ((sy + ey) / 2) = (innerGapOf K vs sx sy ex ey) ^ 2
          ∧ distSq (internalArrowAt K vs sx sy ex ey force sign).endX
              (internalArrowAt K vs sx sy ex ey force sign).endY
              ((sx + ex) / 2) ((sy + ey) / 2) <
            distSq (internalArrowAt K vs sx sy ex ey force sign).startX
              (internalArrowAt K vs sx sy ex ey force sign).startY
              ((sx + ex) / 2) ((sy + ey) / 2))
        ∧ (0 < force →
          distSq (internalArrowAt K vs sx sy ex ey force sign).startX
              (internalArrowAt K vs sx sy ex ey force sign).startY
              ((sx + ex) / 2) ((sy + ey) / 2) = (innerGapOf K vs sx sy ex ey) ^ 2
          ∧ distSq (internalArrowAt K vs sx sy ex ey force sign).endX
              (internalArrowAt K vs sx sy ex ey force sign).endY
              ((sx + ex) / 2) ((sy + ey) / 2) = (outerGapOf K vs sx sy ex ey) ^ 2
          ∧ distSq (internalArrowAt K vs sx sy ex ey force sign).startX
              (internalArrowAt K vs sx sy ex ey force sign).startY
              ((sx + ex) / 2) ((sy + ey) / 2) <
            distSq (internalArrowAt K vs sx sy ex ey force sign).endX
              (internalArrowAt K vs sx sy ex ey force sign).endY
              ((sx + ex) / 2) ((sy + ey) / 2)))
    ∧ ∀ sign : ℚ, internalArrowAt K vs ex ey sx sy force sign =
        internalArrowAt K vs sx sy ex ey force (-sign) := by
  have hLne : K.sqrt ((ex - sx) ^ 2 + (ey - sy) ^ 2) ≠ 0 := ne_of_gt hL
  have hslopes : ((ex - sx) / K.sqrt ((ex - sx) ^ 2 + (ey - sy) ^ 2)) ^ 2 +
      ((ey - sy) / K.sqrt ((ex - sx) ^ 2 + (ey - sy) ^ 2)) ^ 2 = 1 := by
    rw [div_pow, div_pow, div_add_div_same]
    nth_rewrite 1 [← hsq]
    exact div_self (pow_ne_zero 2 hLne)
  have hinner0 : 0 ≤ innerGapOf K vs sx sy ex ey :=
    le_min (mul_nonneg hvs.le (by norm_num)) (mul_nonneg hL.le (by norm_num))
  have harrow0 : 0 < min (vs * (3/2)) (K.sqrt ((ex - sx) ^ 2 + (ey - sy) ^ 2) * (7/20)) :=
    lt_min (mul_pos hvs (by norm_num)) (mul_pos hL (by norm_num))
  have houter : innerGapOf K vs sx sy ex ey < outerGapOf K vs sx sy ex ey :=
    lt_add_of_pos_right _ harrow0
  have hsqlt : (innerGapOf K vs sx sy ex ey) ^ 2 < (outerGapOf K vs sx sy ex ey) ^ 2 :=
    pow_lt_pow_left houter hinner0 (by norm_num)
  refine ⟨rfl, ?_, ?_, ?_, ?_⟩
  · intro sign
    constructor <;> (simp only [internalArrowAt]; split_ifs <;> ring)
  · refine ⟨?_, ?_, ?_, ?_⟩ <;> (simp only [internalArrowAt]; split_ifs <;> ring)
  · intro sign hsgn
    have hsign2 : sign ^ 2 = 1 := by rcases hsgn with rfl | rfl <;> norm_num
    have hdist : ∀ d : ℚ,
        distSq ((sx + ex) / 2 + sign * ((ex - sx) / K.sqrt ((ex - sx) ^ 2 + (ey - sy) ^ 2)) * d)
          ((sy + ey) / 2 + sign * ((ey - sy) / K.sqrt ((ex - sx) ^ 2 + (ey - sy) ^ 2)) * d)
          ((sx + ex) / 2) ((sy + ey) / 2) = d ^ 2 := by
      intro d
      unfold distSq
      have hexp : ((sx + ex) / 2 +
            sign * ((ex - sx) / K.sqrt ((ex - sx) ^ 2 + (ey - sy) ^ 2)) * d - (sx + ex) / 2) ^ 2 +
          ((sy + ey) / 2 +
            sign * ((ey - sy) / K.sqrt ((ex - sx) ^ 2 + (ey - sy) ^ 2)) * d - (sy + ey) / 2) ^ 2 =
          sign ^ 2 * d ^ 2 *
            (((ex - sx) / K.sqrt ((ex - sx) ^ 2 + (ey - sy) ^ 2)) ^ 2 +
             ((ey - sy) / K.sqrt ((ex - sx) ^ 2 + (ey - sy) ^ 2)) ^ 2) := by ring
      rw [hexp, hsign2, hslopes]
      ring
    constructor
    · intro hc
      have hstart : distSq (internalArrowAt K vs sx sy ex ey force sign).startX
          (internalArrowAt K vs sx sy ex ey force sign).startY
          ((sx + ex) / 2) ((sy + ey) / 2) = (outerGapOf K vs sx sy ex ey) ^ 2 := by
        simp only [internalArrowAt, if_pos hc]
        exact hdist _
      have hend : distSq (internalArrowAt K vs sx sy ex ey force sign).endX
          (internalArrowAt K vs sx sy ex ey force sign).endY
          ((sx + ex) / 2) ((sy + ey) / 2) = (innerGapOf K vs sx sy ex ey) ^ 2 := by
        simp only [internalArrowAt, if_pos hc]
        exact hdist _
      exact ⟨hstart, hend, by rw [hstart, hend]; exact hsqlt⟩
    · intro hc
      have hnc : ¬ force ≤ 0 := not_le.mpr hc
      have hstart : distSq (internalArrowAt K vs sx sy ex ey force sign).startX
          (internalArrowAt K vs sx sy ex ey force sign).startY
          ((sx + ex) / 2) ((sy + ey) / 2) = (innerGapOf K vs sx sy ex ey) ^ 2 := by
        simp only [internalArrowAt, if_neg hnc]
        exact hdist _
      have hend : distSq (internalArrowAt K vs sx sy ex ey force sign).endX
          (internalArrowAt K vs sx sy ex ey force sign).endY
          ((sx + ex) / 2) ((sy + ey) / 2) = (outerGapOf K vs sx sy ex ey) ^ 2 := by
        simp only [internalArrowAt, if_neg hnc]
        exact hdist _
      exact ⟨hstart, hend, by rw [hstart, hend]; exact hsqlt⟩
  · intro sign
    have harg : (sx - ex) ^ 2 + (sy - ey) ^ 2 = (ex - sx) ^ 2 + (ey - sy) ^ 2 := by ring
    simp only [internalArrowAt, harg, ArrowCall.mk.injEq, and_true]
    refine ⟨?_, ?_, ?_, ?_⟩ <;> split_ifs <;> ring

theorem internal_arrow_direction_semantics_witness :
    distSq (internalArrowAt ratTrig (9/20) 0 0 4 0 (-10) 1).endX
        (internalArrowAt ratTrig (9/20) 0 0 4 0 (-10) 1).endY ((0 + 4) / 2) ((0 + 0) / 2)
      < distSq (internalArrowAt ratTrig (9/20) 0 0 4 0 (-10) 1).startX
        (internalArrowAt ratTrig (9/20) 0 0 4 0 (-10) 1).startY ((0 + 4) / 2) ((0 + 0) / 2) := by
  have hs : ratTrig.sqrt (((4:ℚ) - 0) ^ 2 + ((0:ℚ) - 0) ^ 2) = 4 := by
    rw [show ((4:ℚ) - 0) ^ 2 + ((0:ℚ) - 0) ^ 2 = 4 * 4 by norm_num]
    exact ratTrig_sqrt_sq 4 (by norm_num)
  have h := internal_arrow_direction_semantics ratTrig (9/20) 0 0 4 0 (-10)
    (by norm_num) (by norm_num) (by rw [hs]; norm_num) (by rw [hs]; norm_num)
  exact ((h.2.2.2.1 1 (Or.inl rfl)).1 (by norm_num)).2.2

theorem ratTrig_sqrt_reaction : ratTrig.sqrt (((0:ℚ)/1000) ^ 2 + ((3000:ℚ)/1000) ^ 2) = 3 := by
  rw [show ((0:ℚ)/1000) ^ 2 + ((3000:ℚ)/1000) ^ 2 = 3 * 3 by norm_num]
  exact ratTrig_sqrt_sq 3 (by norm_num)

/-- C7 counterexample: for a joint at the origin with reaction
`(rx, ry) = (0, 3000)` the single drawn arrow's tail-to-head displacement
is `(0, 0.72)` — a positive multiple of the reaction vector, pointing in
the same direction as the reaction, not the opposite one as claimed. -/
theorem reaction_arrow_direction_counterexample :
    (reactionArrow ratTrig (9/20) ⟨7, 0, 0, .pinnedSupport, 0, 0⟩ ⟨7, 0, 3000⟩).map
        (fun a => (a.endX - a.startX, a.endY - a.startY)) = [((0 : ℚ), (18/25 : ℚ))]
    ∧ (0 : ℚ) < (18/25) * (3000/1000) := by
  constructor
  · simp only [reactionArrow, ratTrig_sqrt_reaction]
    rw [if_pos (by norm_num : ((3:ℚ) > 1/1000))]
    simp only [List.map_cons, List.map_nil, Prod.mk.injEq]
    norm_num
  · norm_num

/-- C7 amended: for every joint whose reaction magnitude exceeds the
`0.001` threshold, exactly one arrow is emitted — purple (`#8b5cf6`),
named and grouped "Reaction Force", labeled with the magnitude prefixed
`R: `, of length `1.6 * VisualScale`, its head placed `0.25 * VisualScale`
from the joint on the side opposite the reaction vector — and its
tail-to-head displacement is a positive multiple of the reaction vector:
the arrow is drawn into the support along the reaction direction, not
opposite to it. -/
theorem reaction_arrow_amended (K : Trig) (vs : ℚ) (node : Node) (nr : NodeResult)
    (hvs : 0 < vs)
    (hmag : 1/1000 < K.sqrt ((nr.rx / 1000) ^ 2 + (nr.ry / 1000) ^ 2))
    (hsq : K.sqrt ((nr.rx / 1000) ^ 2 + (nr.ry / 1000) ^ 2) ^ 2 =
      (nr.rx / 1000) ^ 2 + (nr.ry / 1000) ^ 2) :
    (reactionArrow K vs node nr).length = 1
    ∧ ∀ a ∈ reactionArrow K vs node nr,
        a.color = "#8b5cf6" ∧ a.name = "Reaction Force" ∧ a.group = "Reaction Force"
        ∧ a.text = some ("R: " ++
            fmtDec 1 (K.sqrt ((nr.rx / 1000) ^ 2 + (nr.ry / 1000) ^ 2)))
        ∧ distSq a.startX a.startY a.endX a.endY = ((16/10) * vs) ^ 2
        ∧ distSq a.endX a.endY node.x node.y = ((25/100) * vs) ^ 2
        ∧ a.endX - a.startX = ((16/10) * vs /
            K.sqrt ((nr.rx / 1000) ^ 2 + (nr.ry / 1000) ^ 2)) * (nr.rx / 1000)
        ∧ a.endY - a.startY = ((16/10) * vs /
            K.sqrt ((nr.rx / 1000) ^ 2 + (nr.ry / 1000) ^ 2)) * (nr.ry / 1000)
        ∧ 0 < (16/10) * vs / K.sqrt ((nr.rx / 1000) ^ 2 + (nr.ry / 1000) ^ 2) := by
  have hmag0 : (0:ℚ) < K.sqrt ((nr.rx / 1000) ^ 2 + (nr.ry / 1000) ^ 2) :=
    lt_trans (by norm_num) hmag
  have hmne : K.sqrt ((nr.rx / 1000) ^ 2 + (nr.ry / 1000) ^ 2) ≠ 0 := ne_of_gt hmag0
  have hunit : (nr.rx / 1000 / K.sqrt ((nr.rx / 1000) ^ 2 + (nr.ry / 1000) ^ 2)) ^ 2 +
      (nr.ry / 1000 / K.sqrt ((nr.rx / 1000) ^ 2 + (nr.ry / 1000) ^ 2)) ^ 2 = 1 := by
    have hcomb : (nr.rx / 1000 / K.sqrt ((nr.rx / 1000) ^ 2 + (nr.ry / 1000) ^ 2)) ^ 2 +
        (nr.ry / 1000 / K.sqrt ((nr.rx / 1000) ^ 2 + (nr.ry / 1000) ^ 2)) ^ 2 =
        ((nr.rx / 1000) ^ 2 + (nr.ry / 1000) ^ 2) /
          K.sqrt ((nr.rx / 1000) ^ 2 + (nr.ry / 1000) ^ 2) ^ 2 := by
      ring
    rw [hcomb]
    nth_rewrite 1 [← hsq]
    exact div_self (pow_ne_zero 2 hmne)
  constructor
  · simp only [reactionArrow, if_pos hmag]
    rfl
  · intro a ha
    simp only [reactionArrow, if_pos hmag, List.mem_singleton] at ha
    subst ha
    refine ⟨rfl, rfl, rfl, rfl, ?_, ?_, by ring, by ring,
      div_pos (mul_pos (by norm_num) hvs) hmag0⟩
    · unfold distSq
      have hexp : ∀ ux uy rL rG nx ny : ℚ,
          (nx - ux * (rL + rG) - (nx - ux * rG)) ^ 2 +
            (ny - uy * (rL + rG) - (ny - uy * rG)) ^ 2 = rL ^ 2 * (ux ^ 2 + uy ^ 2) := by
        intro ux uy rL rG nx ny
        ring
      rw [hexp, hunit]
      ring
    · unfold distSq
      have hexp : ∀ ux uy rG nx ny : ℚ,
          (nx - ux * rG - nx) ^ 2 + (ny - uy * rG - ny) ^ 2 = rG ^ 2 * (ux ^ 2 + uy ^ 2) := by
        intro ux uy rG nx ny
        ring
      rw [hexp, hunit]
      ring

theorem reaction_arrow_amended_witness :
    (reactionArrow ratTrig (9/20) ⟨7, 0, 0, .pinnedSupport, 0, 0⟩ ⟨7, 0, 3000⟩).length = 1 :=
  (reaction_arrow_amended ratTrig (9/20) ⟨7, 0, 0, .pinnedSupport, 0, 0⟩ ⟨7, 0, 3000⟩
    (by norm_num)
    (by rw [show ((⟨7, 0, 3000⟩ : NodeResult).rx / 1000) ^ 2 +
          ((⟨7, 0, 3000⟩ : NodeResult).ry / 1000) ^ 2 =
          ((0:ℚ)/1000) ^ 2 + ((3000:ℚ)/1000) ^ 2 from rfl, ratTrig_sqrt_reaction]
        norm_num)
    (by rw [show ((⟨7, 0, 3000⟩ : NodeResult).rx / 1000) ^ 2 +
          ((⟨7, 0, 3000⟩ : NodeResult).ry / 1000) ^ 2 =
          ((0:ℚ)/1000) ^ 2 + ((3000:ℚ)/1000) ^ 2 from rfl, ratTrig_sqrt_reaction]
        norm_num)).1

end TrussViz
